import Mathlib

deriving instance DecidableEq for Except

/-!
Verification of the Homebox backup tool's remote-orchestration core
(`homebox_backup_gui.py`), shallowly embedded in Lean 4.

The embedding models:
  * the Python string helpers actually used by the code (`str.strip`,
    `str.split(sep)`, substring membership `pat in s`) as executable
    functions over `List Char`;
  * each remote command the tool can issue as a constructor of `Cmd`,
    with `render` giving the exact shell text built by the source;
  * the remote host as an environment `Env` mapping each command to an
    `ExecResult` (stdout, stderr, exit code); shell suffixes such as
    `|| true` that force a zero exit status are part of the command text
    and are reflected in `suppressedCmd`;
  * every orchestration routine of the source (`_get_volume_path`,
    `_backup_database`, `_backup_media`, `_backup_other_files`,
    `_download_backup`, `_do_backup`, `_do_scan_containers`,
    `delete_server_backup`) as an executable function returning its
    observable effects (commands issued, log lines, progress checkpoints,
    download attempts) together with its result.
-/

namespace HB

/-! ## Python string primitives -/

/-- Characters treated as whitespace by Python's `str.strip()`. -/
def isSpaceChar (c : Char) : Bool :=
  c == ' ' || c == '\t' || c == '\n' || c == '\r' || c == '\x0b' || c == '\x0c'

/-- Strip whitespace from both ends of a character list. -/
def stripChars (l : List Char) : List Char :=
  ((l.dropWhile isSpaceChar).reverse.dropWhile isSpaceChar).reverse

/-- Python's `s.strip()`. -/
def pyStrip (s : String) : String :=
  ⟨stripChars s.data⟩

/-- Split a character list on a separator character, keeping empty pieces,
as Python's `str.split(sep)` does (`[] ↦ [[]]`). -/
def splitChar (sep : Char) : List Char → List (List Char)
  | [] => [[]]
  | c :: rest =>
    let r := splitChar sep rest
    if c == sep then [] :: r
    else
      match r with
      | [] => [[c]]
      | h :: t => (c :: h) :: t

/-- Python's `s.split(sep)` for a one-character separator. -/
def pySplit (sep : Char) (s : String) : List String :=
  (splitChar sep s.data).map (fun l => ⟨l⟩)

/-- Does `s` start with `p`? (character-list version) -/
def charsStartWith : List Char → List Char → Bool
  | _, [] => true
  | [], _ :: _ => false
  | c :: s, d :: p => c == d && charsStartWith s p

/-- Does `s` contain `p` as a contiguous substring? (character-list version) -/
def charsContain : List Char → List Char → Bool
  | [], p => charsStartWith [] p
  | c :: s, p => charsStartWith (c :: s) p || charsContain s p

/-- Python's `pat in s` substring test. -/
def strContains (s pat : String) : Bool :=
  charsContain s.data pat.data

/-- Concatenation of a list of strings with no separator (the effect of a Go
template `range` over mounts, as docker renders it). -/
def concatAll : List String → String
  | [] => ""
  | s :: rest => s ++ concatAll rest

/-! ## Data model -/

/-- One entry of a container's mount table as reported by `docker inspect`:
a source path on the host and a destination path inside the container. -/
structure Mount where
  source : String
  destination : String
deriving DecidableEq, Repr

/-- A running container as parsed from one line of the listing command. -/
structure Container where
  id : String
  name : String
  image : String
deriving DecidableEq, Repr

/-- Result of running one remote command: captured stdout, stderr and the
process exit status. -/
structure ExecResult where
  stdout : String
  stderr : String
  exitCode : Nat
deriving DecidableEq, Repr

/-- The remote commands the tool can issue, one constructor per distinct
command template in the source. -/
inductive Cmd where
  | dockerPs
  | inspectMountsJson (container : String)
  | inspectDataSource (container : String)
  | inspectAllSources (container : String)
  | mkdirWorkspace (tempDir : String)
  | mkdirOtherFiles (tempDir : String)
  | pgDump (container : String) (dumpFile : String)
  | checkMediaDir (mediaSrc : String)
  | copyMedia (mediaSrc : String) (mediaDst : String)
  | listVolume (volumePath : String)
  | copyOther (src : String) (dst : String)
  | tarArchive (backupName : String)
  | rmTemp (tempDir : String)
  | rmArchive (path : String)
deriving DecidableEq, Repr

/-- The exact shell text the source builds for each command (the docker
format braces are written with their escape codes). -/
def render : Cmd → String
  | .dockerPs =>
      "docker ps --format \x27\x7b\x7b.ID\x7d\x7d|\x7b\x7b.Names\x7d\x7d|\x7b\x7b.Image\x7d\x7d\x27"
  | .inspectMountsJson n =>
      "docker inspect " ++ n ++ " --format \x27\x7b\x7bjson .Mounts\x7d\x7d\x27"
  | .inspectDataSource n =>
      "docker inspect " ++ n ++
        " --format \x27\x7b\x7brange .Mounts\x7d\x7d\x7b\x7bif eq .Destination \"/data\"\x7d\x7d\x7b\x7b.Source\x7d\x7d\x7b\x7bend\x7d\x7d\x7b\x7bend\x7d\x7d\x27"
  | .inspectAllSources n =>
      "docker inspect " ++ n ++
        " --format \x27\x7b\x7brange .Mounts\x7d\x7d\x7b\x7b.Source\x7d\x7d\x7b\x7bend\x7d\x7d\x27"
  | .mkdirWorkspace t => "mkdir -p " ++ t ++ "/database " ++ t ++ "/media"
  | .mkdirOtherFiles t => "mkdir -p " ++ t ++ "/other-files"
  | .pgDump n f => "docker exec " ++ n ++ " pg_dump -U homebox homebox > " ++ f
  | .checkMediaDir s => "[ -d " ++ s ++ " ] && echo \x27exists\x27 || echo \x27notfound\x27"
  | .copyMedia s d => "cp -r " ++ s ++ "/* " ++ d ++ " 2>/dev/null || true"
  | .listVolume v => "ls -1 " ++ v
  | .copyOther s d => "cp -r " ++ s ++ " " ++ d ++ " 2>/dev/null || true"
  | .tarArchive b => "cd /tmp && tar -czf " ++ b ++ ".tar.gz " ++ b
  | .rmTemp t => "rm -rf " ++ t
  | .rmArchive p => "rm -f " ++ p

/-- Commands whose shell text ends in a branch that always exits 0
(`|| true`, or an `&& echo .. || echo ..` chain ending in `echo`): whatever
the underlying utility does, the observed exit status is 0. -/
def suppressedCmd : Cmd → Bool
  | .checkMediaDir _ => true
  | .copyMedia _ _ => true
  | .copyOther _ _ => true
  | _ => false

/-- The remote host: what each command returns when executed, and whether
an SCP file transfer succeeds (with the exception text when it does not). -/
structure Env where
  exec : Cmd → ExecResult
  scpOk : Bool
  scpErr : String

/-- Model of `_execute_command`: run the command, observe the exit status,
and raise `Command failed: <command>\n<stderr>` when it is non-zero.
For `suppressedCmd` commands the shell guarantees a zero status. -/
def execRes (env : Env) (c : Cmd) : Except String String :=
  let r := env.exec c
  let code := if suppressedCmd c then 0 else r.exitCode
  if code ≠ 0 then .error ("Command failed: " ++ render c ++ "\n" ++ r.stderr)
  else .ok r.stdout

/-! ## Observable effects -/

/-- The observable effects of one helper routine: remote commands issued
(in order), log lines emitted, and download attempts (remote, local). -/
structure Delta where
  issued : List Cmd := []
  logs : List String := []
  downloads : List (String × String) := []
deriving DecidableEq, Repr

/-- Sequential composition of two effect records. -/
def dmerge (a b : Delta) : Delta :=
  ⟨a.issued ++ b.issued, a.logs ++ b.logs, a.downloads ++ b.downloads⟩

/-- The accumulated observable effects of a whole run, including the
progress-bar checkpoints reported in order. -/
structure Trace where
  issued : List Cmd := []
  progress : List Nat := []
  logs : List String := []
  downloads : List (String × String) := []
deriving DecidableEq, Repr

def applyDelta (st : Trace) (d : Delta) : Trace :=
  { st with
    issued := st.issued ++ d.issued
    logs := st.logs ++ d.logs
    downloads := st.downloads ++ d.downloads }

def pushProgress (st : Trace) (n : Nat) : Trace :=
  { st with progress := st.progress ++ [n] }

def pushLog (st : Trace) (s : String) : Trace :=
  { st with logs := st.logs ++ [s] }

/-! ## Docker model

What the three `docker inspect` command templates print for a container
whose mount table is `mounts`.  The JSON rendering keeps the `Source` and
`Destination` fields (the only fields through which the substring `/data`
can enter the output, since field names, mount types, modes and volume
names cannot contain a slash). -/

/-- JSON rendering of one mount table entry. -/
def mountJson (m : Mount) : String :=
  "\x7b\"Source\":\"" ++ m.source ++ "\",\"Destination\":\"" ++ m.destination ++ "\"\x7d"

/-- Comma-separated join, as in a JSON array body. -/
def joinComma : List String → String
  | [] => ""
  | [s] => s
  | s :: rest => s ++ ("," ++ joinComma (rest))

/-- Output of `docker inspect NAME --format '\x7b\x7bjson .Mounts\x7d\x7d'`. -/
def dockerInspectJson (mounts : List Mount) : String :=
  "[" ++ joinComma (mounts.map mountJson) ++ "]"

/-- Output of the template selecting `.Source` of mounts whose
`.Destination` equals `/data`: the matching sources concatenated with no
separator. -/
def dockerInspectDataSource (mounts : List Mount) : String :=
  concatAll (mounts.map (fun m => if m.destination == "/data" then m.source else ""))

/-- Output of the template printing every mount's `.Source`: all sources
concatenated with no separator. -/
def dockerInspectAllSources (mounts : List Mount) : String :=
  concatAll (mounts.map (fun m => m.source))

/-- An environment in which the inspect commands report the given mount
table and every command exits 0. -/
def mountEnv (mounts : List Mount) : Env where
  exec c :=
    match c with
    | .inspectMountsJson _ => ⟨dockerInspectJson mounts, "", 0⟩
    | .inspectDataSource _ => ⟨dockerInspectDataSource mounts, "", 0⟩
    | .inspectAllSources _ => ⟨dockerInspectAllSources mounts, "", 0⟩
    | _ => ⟨"", "", 0⟩
  scpOk := true
  scpErr := ""

/-! ## Volume discovery (`_get_volume_path`) -/

/-- Fallback branch of `_get_volume_path`: print every mount source, strip,
take the piece before the first newline, return it if non-empty. -/
def getVolumeFallback (env : Env) (containerName : String) :
    Delta × Except String (Option String) :=
  let c := Cmd.inspectAllSources containerName
  match execRes env c with
  | .error e => (⟨[c], [], []⟩, .error e)
  | .ok out =>
    let volumePath := (pySplit '\n' (pyStrip out)).headD ""
    (⟨[c], [], []⟩, .ok (if volumePath ≠ "" then some volumePath else none))

/-- Model of `_get_volume_path`: inspect the JSON mount table; if the text
`/data` occurs in it, extract the source of the `/data` mount and return it
when non-empty after stripping; otherwise fall back to the all-sources
listing. -/
def getVolumePath (env : Env) (containerName : String) :
    Delta × Except String (Option String) :=
  let c1 := Cmd.inspectMountsJson containerName
  match execRes env c1 with
  | .error e => (⟨[c1], [], []⟩, .error e)
  | .ok output =>
    if strContains output "/data" then
      let c2 := Cmd.inspectDataSource containerName
      match execRes env c2 with
      | .error e => (⟨[c1, c2], [], []⟩, .error e)
      | .ok out2 =>
        let volumePath := pyStrip out2
        if volumePath ≠ "" then (⟨[c1, c2], [], []⟩, .ok (some volumePath))
        else
          let fb := getVolumeFallback env containerName
          (dmerge ⟨[c1, c2], [], []⟩ fb.1, fb.2)
    else
      let fb := getVolumeFallback env containerName
      (dmerge ⟨[c1], [], []⟩ fb.1, fb.2)

/-! ## Pipeline stages -/

/-- Model of `_backup_database`: run `pg_dump` inside the database
container, redirected to the workspace's database subdirectory. -/
def backupDatabase (env : Env) (postgresName tempDir : String) :
    Delta × Except String Unit :=
  let c := Cmd.pgDump postgresName (tempDir ++ "/database/homebox_db.sql")
  match execRes env c with
  | .error e => (⟨[c], [], []⟩, .error e)
  | .ok _ => (⟨[c], ["Database backup completed"], []⟩, .ok ())

/-- Model of `_backup_media`: check for the `attachments` subpath; when it
exists, copy its contents with an error-suppressed `cp`; when absent, log
and continue. -/
def backupMedia (env : Env) (volumePath tempDir : String) :
    Delta × Except String Unit :=
  let mediaSrc := volumePath ++ "/attachments"
  let mediaDst := tempDir ++ "/media/"
  let c1 := Cmd.checkMediaDir mediaSrc
  match execRes env c1 with
  | .error e => (⟨[c1], [], []⟩, .error e)
  | .ok out =>
    if pyStrip out = "exists" then
      let c2 := Cmd.copyMedia mediaSrc mediaDst
      match execRes env c2 with
      | .error e => (⟨[c1, c2], [], []⟩, .error e)
      | .ok _ => (⟨[c1, c2], ["Media files backup completed"], []⟩, .ok ())
    else (⟨[c1], ["No media directory found, skipping..."], []⟩, .ok ())

/-- The copy loop of `_backup_other_files`: one error-suppressed `cp` per
non-empty entry other than `attachments`. -/
def copyOtherLoop (env : Env) (volumePath otherDst : String) :
    List String → Delta × Except String Unit
  | [] => (⟨[], [], []⟩, .ok ())
  | d :: rest =>
    if d ≠ "" ∧ d ≠ "attachments" then
      let c := Cmd.copyOther (volumePath ++ "/" ++ d) otherDst
      match execRes env c with
      | .error e => (⟨[c], [], []⟩, .error e)
      | .ok _ =>
        let next := copyOtherLoop env volumePath otherDst rest
        (dmerge ⟨[c], [], []⟩ next.1, next.2)
    else copyOtherLoop env volumePath otherDst rest

/-- Model of `_backup_other_files`: list the volume root's top-level
entries, then copy each entry except `attachments`. -/
def backupOtherFiles (env : Env) (volumePath tempDir : String) :
    Delta × Except String Unit :=
  let otherDst := tempDir ++ "/other-files/"
  let c := Cmd.listVolume volumePath
  match execRes env c with
  | .error e => (⟨[c], [], []⟩, .error e)
  | .ok out =>
    let lp := copyOtherLoop env volumePath otherDst (pySplit '\n' (pyStrip out))
    match lp.2 with
    | .error e => (dmerge ⟨[c], [], []⟩ lp.1, .error e)
    | .ok _ =>
      (dmerge (dmerge ⟨[c], [], []⟩ lp.1) ⟨[], ["Other files backup completed"], []⟩, .ok ())

/-- Model of `_download_backup`: one SCP transfer attempt; on failure the
raised message is `Download failed: <cause>`. -/
def downloadBackup (env : Env) (remotePath localPath : String) :
    Delta × Except String Unit :=
  if env.scpOk then
    (⟨[], ["Downloaded to: " ++ localPath], [(remotePath, localPath)]⟩, .ok ())
  else
    (⟨[], [], [(remotePath, localPath)]⟩, .error ("Download failed: " ++ env.scpErr))

/-! ## The backup pipeline (`start_backup` / `_do_backup`) -/

/-- Terminal state of one pipeline run. -/
inductive Outcome where
  | success (localPath : String)
  | failure (msg : String)
deriving DecidableEq, Repr

/-- Everything observable about one pipeline run: the trace, the terminal
state, and the value of the retained remote archive path after the run. -/
structure RunResult where
  trace : Trace
  outcome : Outcome
  remote : Option String
deriving DecidableEq, Repr

/-- The caller-supplied inputs of one run: the two selected containers,
the include-other-files option, the local save directory, and the
timestamp the run derives its names from. -/
structure Params where
  homeboxName : String
  postgresName : String
  includeOther : Bool
  savePath : String
  timestamp : String
deriving DecidableEq, Repr

def backupNameOf (p : Params) : String := "homebox_backup_" ++ p.timestamp
def tempDirOf (p : Params) : String := "/tmp/" ++ backupNameOf p
def archivePathOf (p : Params) : String := "/tmp/" ++ backupNameOf p ++ ".tar.gz"
def localPathOf (p : Params) : String := p.savePath ++ "/" ++ backupNameOf p ++ ".tar.gz"

/-- The `except` branch of `_do_backup`: log the error and end `Failed`,
leaving the retained archive path at the given value. -/
def mkFail (st : Trace) (rem : Option String) (msg : String) : RunResult :=
  { trace := pushLog st ("ERROR: " ++ msg), outcome := .failure msg, remote := rem }

/-- Model of `_do_backup`, started with the trace `st` (which already holds
the progress reset to 0 performed by `start_backup`) and with `prev` as the
retained remote archive path from before the run. -/
def doBackup (env : Env) (p : Params) (prev : Option String) (st : Trace) : RunResult :=
  -- Step 1: find the data volume
  let st := pushProgress (pushLog st "Step 1: Finding data volume...") 5
  let gv := getVolumePath env p.homeboxName
  let st := applyDelta st gv.1
  match gv.2 with
  | .error e => mkFail st prev e
  | .ok none => mkFail st prev "Could not determine data volume path"
  | .ok (some volumePath) =>
    let st := pushLog st ("Data volume path: " ++ volumePath)
    -- Step 2: create the workspace
    let st := pushProgress (pushLog st "Step 2: Creating temporary backup directory...") 10
    let tempDir := tempDirOf p
    let c1 := Cmd.mkdirWorkspace tempDir
    let st := applyDelta st ⟨[c1], [], []⟩
    match execRes env c1 with
    | .error e => mkFail st prev e
    | .ok _ =>
      let step2b : Trace × Except String Unit :=
        if p.includeOther then
          let c2 := Cmd.mkdirOtherFiles tempDir
          (applyDelta st ⟨[c2], [], []⟩,
           match execRes env c2 with
           | .error e => .error e
           | .ok _ => .ok ())
        else (st, .ok ())
      let st := step2b.1
      match step2b.2 with
      | .error e => mkFail st prev e
      | .ok _ =>
        -- Step 3: dump the database
        let st := pushProgress (pushLog st "Step 3: Backing up PostgreSQL database...") 20
        let db := backupDatabase env p.postgresName tempDir
        let st := applyDelta st db.1
        match db.2 with
        | .error e => mkFail st prev e
        | .ok _ =>
          -- Step 4: copy media
          let st := pushProgress (pushLog st "Step 4: Backing up media files...") 40
          let md := backupMedia env volumePath tempDir
          let st := applyDelta st md.1
          match md.2 with
          | .error e => mkFail st prev e
          | .ok _ =>
            -- Step 5: optionally copy other files
            let step5 : Trace × Except String Unit :=
              if p.includeOther then
                let st := pushProgress
                  (pushLog st "Step 5: Backing up other data volume files...") 60
                let ot := backupOtherFiles env volumePath tempDir
                (applyDelta st ot.1, ot.2)
              else (pushProgress st 60, .ok ())
            let st := step5.1
            match step5.2 with
            | .error e => mkFail st prev e
            | .ok _ =>
              -- Step 6: archive the workspace and remove it
              let st := pushProgress (pushLog st "Step 6: Creating archive...") 70
              let c3 := Cmd.tarArchive (backupNameOf p)
              let st := applyDelta st ⟨[c3], [], []⟩
              match execRes env c3 with
              | .error e => mkFail st prev e
              | .ok _ =>
                let c4 := Cmd.rmTemp tempDir
                let st := applyDelta st ⟨[c4], [], []⟩
                match execRes env c4 with
                | .error e => mkFail st prev e
                | .ok _ =>
                  -- the retained remote archive path is assigned here
                  let rem := some (archivePathOf p)
                  -- Step 7: download
                  let st := pushProgress (pushLog st "Step 7: Downloading backup...") 75
                  let dl := downloadBackup env (archivePathOf p) (localPathOf p)
                  let st := applyDelta st dl.1
                  match dl.2 with
                  | .error e => mkFail st rem e
                  | .ok _ =>
                    let st := pushLog (pushProgress st 100) "Backup completed successfully!"
                    { trace := st, outcome := .success (localPathOf p), remote := rem }

/-- Model of `start_backup`: reset the progress bar to 0, then run the
pipeline on the worker thread. -/
def startBackup (env : Env) (p : Params) (prev : Option String) : RunResult :=
  doBackup env p prev { issued := [], progress := [0], logs := [], downloads := [] }

/-! ## Container scan (`_do_scan_containers`) -/

/-- The parse loop of `_do_scan_containers`: a non-empty line that splits
on `|` into exactly three fields contributes a container; every other line
is skipped. -/
def collectContainers : List String → List Container
  | [] => []
  | line :: rest =>
    if line ≠ "" then
      let parts := pySplit '|' line
      if parts.length = 3 then
        { id := parts.headD "", name := (parts.drop 1).headD "",
          image := (parts.drop 2).headD "" } :: collectContainers rest
      else collectContainers rest
    else collectContainers rest

/-- Outcome of a container scan, as surfaced to the user. -/
inductive ScanOutcome where
  | scanError (msg : String)
  | noContainers
  | found (cs : List Container)
deriving DecidableEq, Repr

/-- Result of a container scan: the warning lines logged and the outcome. -/
structure ScanResult where
  warnings : List String
  outcome : ScanOutcome
deriving DecidableEq, Repr

/-- Model of `_do_scan_containers`.  The argument is `.error e` when the
transport layer raised while issuing the listing command (the `except`
branch), and `.ok r` when the command ran and returned `r`.  Note the exit
code of `r` is never examined: a non-empty stderr only produces a warning
line, and stdout is parsed regardless. -/
def doScanContainers (r : Except String ExecResult) : ScanResult :=
  match r with
  | .error e => ⟨[], .scanError e⟩
  | .ok res =>
    let warnings := if res.stderr ≠ "" then ["Warning: " ++ res.stderr] else []
    let cs := collectContainers (pySplit '\n' (pyStrip res.stdout))
    if cs.isEmpty then ⟨warnings, .noContainers⟩ else ⟨warnings, .found cs⟩

/-! ## Deleting the remote archive (`delete_server_backup`) -/

inductive DeleteOutcome where
  | nothingToDelete
  | cancelled
  | deleted
  | deleteFailed (msg : String)
deriving DecidableEq, Repr

structure DeleteResult where
  outcome : DeleteOutcome
  remote : Option String
  issued : List Cmd
deriving DecidableEq, Repr

/-- Model of `delete_server_backup`: with no retained path, warn and return
issuing nothing; otherwise ask for confirmation, and on confirmation run
`rm -f`, clearing the retained path only when it succeeds. -/
def deleteServerBackup (env : Env) (confirm : Bool) (prev : Option String) :
    DeleteResult :=
  match prev with
  | none => ⟨.nothingToDelete, none, []⟩
  | some path =>
    if !confirm then ⟨.cancelled, some path, []⟩
    else
      match execRes env (.rmArchive path) with
      | .error e => ⟨.deleteFailed e, some path, [.rmArchive path]⟩
      | .ok _ => ⟨.deleted, none, [.rmArchive path]⟩

/-! ## Application-level events touching the retained archive path -/

/-- The user actions that can touch the retained remote archive path. -/
inductive Event where
  | runBackup (env : Env) (p : Params)
  | deleteBackup (env : Env) (confirm : Bool)

/-- How each event transforms the retained remote archive path. -/
def stepRemote (s : Option String) : Event → Option String
  | .runBackup env p => (startBackup env p s).remote
  | .deleteBackup env confirm => (deleteServerBackup env confirm s).remote

/-! ## Classification helpers -/

/-- Is an outcome the success terminal state? -/
def Outcome.isSuccess : Outcome → Bool
  | .success _ => true
  | .failure _ => false

/-- Is a scan outcome an error? -/
def ScanOutcome.isError : ScanOutcome → Bool
  | .scanError _ => true
  | _ => false

/-- Is a progress checkpoint sequence non-decreasing? -/
def nondecreasing : List Nat → Bool
  | [] => true
  | [_] => true
  | a :: b :: rest => Nat.ble a b && nondecreasing (b :: rest)

/-- Commands issued by volume discovery. -/
def isInspectCmd : Cmd → Bool
  | .inspectMountsJson _ | .inspectDataSource _ | .inspectAllSources _ => true
  | _ => false

/-- Commands belonging to the media-copy, other-files, archive and
workspace-cleanup stages: everything the pipeline runs after the database
dump. -/
def isPostDumpCmd : Cmd → Bool
  | .checkMediaDir _ | .copyMedia _ _ | .listVolume _ | .copyOther _ _
  | .tarArchive _ | .rmTemp _ => true
  | _ => false

/-- Commands that exist only for the optional other-files feature: creating
the extra-files subdirectory, enumerating the volume root, and the per-entry
copies. -/
def isOtherFilesCmd : Cmd → Bool
  | .mkdirOtherFiles _ | .listVolume _ | .copyOther _ _ => true
  | _ => false

/-- The fixed command repertoire of a backup run with other-files disabled. -/
def isCorePipelineCmd : Cmd → Bool
  | .inspectMountsJson _ | .inspectDataSource _ | .inspectAllSources _
  | .mkdirWorkspace _ | .pgDump _ _ | .checkMediaDir _ | .copyMedia _ _
  | .tarArchive _ | .rmTemp _ => true
  | _ => false

/-- Written from the specification's words, not from the code: a line of
the listing output contributes a container exactly when it is non-empty and
splits on the pipe character into exactly three fields (id, name, image). -/
def lineToContainerSpec (line : String) : Option Container :=
  if line ≠ "" ∧ (pySplit '|' line).length = 3 then
    some { id := (pySplit '|' line).headD "",
           name := ((pySplit '|' line).drop 1).headD "",
           image := ((pySplit '|' line).drop 2).headD "" }
  else none

/-! ## Concrete environments and inputs used by the witnesses -/

/-- A mount table with one `/data` mount, as a typical deployment has. -/
def stdMounts : List Mount := [⟨"/vol", "/data"⟩]

/-- A host on which every remote command succeeds: the homebox container
has the mount table `stdMounts`, the attachments directory exists, and the
SCP transfer works. -/
def okEnv : Env where
  exec c :=
    match c with
    | .inspectMountsJson _ => ⟨dockerInspectJson stdMounts, "", 0⟩
    | .inspectDataSource _ => ⟨dockerInspectDataSource stdMounts, "", 0⟩
    | .inspectAllSources _ => ⟨dockerInspectAllSources stdMounts, "", 0⟩
    | .checkMediaDir _ => ⟨"exists", "", 0⟩
    | _ => ⟨"", "", 0⟩
  scpOk := true
  scpErr := ""

/-- Like `okEnv`, except the database dump exits 1 with an error on stderr. -/
def failDumpEnv : Env :=
  { okEnv with
    exec := fun c =>
      match c with
      | .pgDump _ _ => ⟨"", "pg_dump: error: connection refused", 1⟩
      | c => okEnv.exec c }

/-- Like `okEnv`, except the media copy utility itself fails (exit 1);
the shell suffix `|| true` still reports success for the whole command. -/
def mediaFailEnv : Env :=
  { okEnv with
    exec := fun c =>
      match c with
      | .copyMedia _ _ => ⟨"", "cp: cannot stat source", 1⟩
      | c => okEnv.exec c }

/-- Concrete run inputs with the other-files option off. -/
def pW : Params := ⟨"homebox", "postgres", false, "/home/user/Downloads", "20260101_120000"⟩

/-! ## Substring lemmas -/

theorem charsStartWith_self_append (p r : List Char) :
    charsStartWith (p ++ r) p = true := by
  induction p with
  | nil => cases r <;> rfl
  | cons c p ih => simp [charsStartWith, ih]

theorem charsContain_decomp (pre p post : List Char) :
    charsContain (pre ++ (p ++ post)) p = true := by
  induction pre with
  | nil =>
    simp only [List.nil_append]
    cases hp : p ++ post with
    | nil =>
      have hpn : p = [] := by
        cases p with
        | nil => rfl
        | cons c s => simp at hp
      subst hpn
      rfl
    | cons c s =>
      have h1 : charsStartWith (c :: s) p = true := by
        rw [← hp]; exact charsStartWith_self_append p post
      simp [charsContain, h1]
  | cons a pre ih => simp [charsContain, ih]

theorem strContains_decomp (s p : String) (pre post : List Char)
    (h : s.data = pre ++ (p.data ++ post)) : strContains s p = true := by
  unfold strContains
  rw [h]
  exact charsContain_decomp pre p.data post

theorem strContains_suffix (a s : String) : strContains (a ++ s) s = true := by
  refine strContains_decomp _ _ a.data [] ?_
  simp [String.data_append]

/-! ## Docker-output decomposition lemmas -/

theorem joinComma_mem {l : List String} {a : String} (h : a ∈ l) :
    ∃ pre post : String, joinComma l = pre ++ (a ++ post) := by
  induction l with
  | nil => cases h
  | cons s rest ih =>
    rcases List.mem_cons.mp h with rfl | hmem
    · cases rest with
      | nil =>
        exact ⟨"", "", by simp [joinComma, String.append_empty, String.empty_append]⟩
      | cons t ts =>
        refine ⟨"", "," ++ joinComma (t :: ts), ?_⟩
        simp [joinComma, String.empty_append]
    · have hrest : rest ≠ [] := List.ne_nil_of_mem hmem
      obtain ⟨pre, post, hj⟩ := ih hmem
      cases rest with
      | nil => cases hmem
      | cons t ts =>
        refine ⟨s ++ ("," ++ pre), post, ?_⟩
        simp only [joinComma, hj, String.append_assoc]

theorem dockerInspectJson_contains_data {mounts : List Mount} {m : Mount}
    (hm : m ∈ mounts) (hd : m.destination = "/data") :
    strContains (dockerInspectJson mounts) "/data" = true := by
  obtain ⟨pre, post, hj⟩ := joinComma_mem (List.mem_map_of_mem mountJson hm)
  refine strContains_decomp _ _
    ("[" ++ pre ++ ("\x7b\"Source\":\"" ++ m.source ++ "\",\"Destination\":\"")).data
    (("\"\x7d" ++ post ++ "]").data) ?_
  have : mountJson m =
      ("\x7b\"Source\":\"" ++ m.source ++ "\",\"Destination\":\"") ++ ("/data" ++ "\"\x7d") := by
    simp [mountJson, hd, String.append_assoc]
  simp only [dockerInspectJson, hj, this, String.data_append, List.append_assoc]

theorem dataSource_cons (x : Mount) (t : List Mount) :
    dockerInspectDataSource (x :: t) =
      (if x.destination == "/data" then x.source else "") ++ dockerInspectDataSource t :=
  rfl

theorem dataSource_concat_empty {mounts : List Mount}
    (h : ∀ m ∈ mounts, (m.destination == "/data") = false) :
    dockerInspectDataSource mounts = "" := by
  induction mounts with
  | nil => rfl
  | cons x t ih =>
    have hx := h x (List.mem_cons_self x t)
    have ht : ∀ m ∈ t, (m.destination == "/data") = false :=
      fun m hm => h m (List.mem_cons_of_mem x hm)
    rw [dataSource_cons, if_neg (by simp [hx]), ih ht, String.empty_append]

theorem dataSource_single {mounts : List Mount} {m : Mount}
    (h : mounts.filter (fun x => x.destination == "/data") = [m]) :
    dockerInspectDataSource mounts = m.source := by
  induction mounts with
  | nil => simp at h
  | cons x t ih =>
    simp only [List.filter_cons] at h
    by_cases hx : (x.destination == "/data") = true
    · rw [if_pos hx] at h
      injection h with h1 h2
      subst h1
      have ht : ∀ y ∈ t, (y.destination == "/data") = false := by
        intro y hy
        by_contra hne
        have : y ∈ t.filter (fun z => z.destination == "/data") :=
          List.mem_filter.mpr ⟨hy, Bool.of_not_eq_false hne⟩
        rw [h2] at this
        cases this
      rw [dataSource_cons, if_pos hx, dataSource_concat_empty ht, String.append_empty]
    · rw [if_neg hx] at h
      rw [dataSource_cons, if_neg hx, ih h, String.empty_append]

/-! ## Structural lemmas about traces and stages -/

@[simp] theorem applyDelta_progress (st : Trace) (d : Delta) :
    (applyDelta st d).progress = st.progress := rfl

@[simp] theorem applyDelta_issued (st : Trace) (d : Delta) :
    (applyDelta st d).issued = st.issued ++ d.issued := rfl

@[simp] theorem applyDelta_downloads (st : Trace) (d : Delta) :
    (applyDelta st d).downloads = st.downloads ++ d.downloads := rfl

@[simp] theorem pushProgress_progress (st : Trace) (n : Nat) :
    (pushProgress st n).progress = st.progress ++ [n] := rfl

@[simp] theorem pushProgress_issued (st : Trace) (n : Nat) :
    (pushProgress st n).issued = st.issued := rfl

@[simp] theorem pushProgress_downloads (st : Trace) (n : Nat) :
    (pushProgress st n).downloads = st.downloads := rfl

@[simp] theorem pushLog_progress (st : Trace) (s : String) :
    (pushLog st s).progress = st.progress := rfl

@[simp] theorem pushLog_issued (st : Trace) (s : String) :
    (pushLog st s).issued = st.issued := rfl

@[simp] theorem pushLog_downloads (st : Trace) (s : String) :
    (pushLog st s).downloads = st.downloads := rfl

@[simp] theorem mkFail_trace_progress (st : Trace) (rem : Option String) (msg : String) :
    (mkFail st rem msg).trace.progress = st.progress := rfl

@[simp] theorem mkFail_trace_issued (st : Trace) (rem : Option String) (msg : String) :
    (mkFail st rem msg).trace.issued = st.issued := rfl

@[simp] theorem mkFail_trace_downloads (st : Trace) (rem : Option String) (msg : String) :
    (mkFail st rem msg).trace.downloads = st.downloads := rfl

@[simp] theorem mkFail_outcome (st : Trace) (rem : Option String) (msg : String) :
    (mkFail st rem msg).outcome = .failure msg := rfl

@[simp] theorem mkFail_remote (st : Trace) (rem : Option String) (msg : String) :
    (mkFail st rem msg).remote = rem := rfl

@[simp] theorem dmerge_issued (a b : Delta) :
    (dmerge a b).issued = a.issued ++ b.issued := rfl

@[simp] theorem dmerge_downloads (a b : Delta) :
    (dmerge a b).downloads = a.downloads ++ b.downloads := rfl

theorem listAllMono {l : List Cmd} {p q : Cmd → Bool}
    (hpq : ∀ c, p c = true → q c = true) (h : l.all p = true) : l.all q = true := by
  induction l with
  | nil => rfl
  | cons c rest ih =>
    simp only [List.all_cons, Bool.and_eq_true] at h ⊢
    exact ⟨hpq c h.1, ih h.2⟩

/-- The fallback branch's effects are the same whatever the command
returned: one inspect command, no logs, no downloads. -/
theorem gvf_delta (env : Env) (n : String) :
    (getVolumeFallback env n).1 = ⟨[Cmd.inspectAllSources n], [], []⟩ := by
  cases hr : execRes env (Cmd.inspectAllSources n) <;> simp [getVolumeFallback, hr]

/-- Volume discovery only ever issues inspect commands. -/
theorem gv_issued_inspect (env : Env) (n : String) :
    ((getVolumePath env n).1.issued).all isInspectCmd = true := by
  simp only [getVolumePath, gvf_delta]
  repeat' split
  all_goals simp [dmerge, isInspectCmd]

/-- Volume discovery performs no download attempt. -/
theorem gv_downloads_nil (env : Env) (n : String) :
    (getVolumePath env n).1.downloads = [] := by
  simp only [getVolumePath, gvf_delta]
  repeat' split
  all_goals simp [dmerge]

/-- The database stage issues exactly the dump command, whatever happens. -/
theorem bd_issued (env : Env) (n t : String) :
    (backupDatabase env n t).1.issued = [Cmd.pgDump n (t ++ "/database/homebox_db.sql")] := by
  cases hr : execRes env (Cmd.pgDump n (t ++ "/database/homebox_db.sql")) <;>
    simp [backupDatabase, hr]

theorem bd_downloads (env : Env) (n t : String) :
    (backupDatabase env n t).1.downloads = [] := by
  cases hr : execRes env (Cmd.pgDump n (t ++ "/database/homebox_db.sql")) <;>
    simp [backupDatabase, hr]

/-- Every command the media stage issues satisfies `q` as soon as `q`
accepts the existence check and the suppressed copy. -/
theorem bm_issued_all (env : Env) (v t : String) (q : Cmd → Bool)
    (h1 : q (Cmd.checkMediaDir (v ++ "/attachments")) = true)
    (h2 : q (Cmd.copyMedia (v ++ "/attachments") (t ++ "/media/")) = true) :
    ((backupMedia env v t).1.issued).all q = true := by
  simp only [backupMedia]
  repeat' split
  all_goals simp [h1, h2]

theorem bm_downloads (env : Env) (v t : String) :
    (backupMedia env v t).1.downloads = [] := by
  simp only [backupMedia]
  repeat' split
  all_goals rfl

theorem dlb_issued (env : Env) (r l : String) :
    (downloadBackup env r l).1.issued = [] := by
  simp only [downloadBackup]
  split <;> rfl

theorem inspect_not_postdump (c : Cmd) :
    isInspectCmd c = true → (!isPostDumpCmd c) = true := by
  cases c <;> simp [isInspectCmd, isPostDumpCmd]

theorem inspect_core (c : Cmd) :
    isInspectCmd c = true → (!isOtherFilesCmd c && isCorePipelineCmd c) = true := by
  cases c <;> simp [isInspectCmd, isOtherFilesCmd, isCorePipelineCmd]

/-! ## Claim C1 -/

/-- C1: the claim says that for a container with mounts but none whose
destination is `/data`, the lookup returns the source of the *first* mount.
Evaluating the code on a container with two mounts (`/a` at `/x`, `/b` at
`/y`) shows it returns `/a/b`: the inspection template concatenates all
sources with no separator, so `split('\n')[0]` yields the concatenation,
not the first mount's source `/a`. -/
theorem c1_multi_mount_fallback_eval :
    (getVolumePath (mountEnv [⟨"/a", "/x"⟩, ⟨"/b", "/y"⟩]) "homebox").2 =
      .ok (some "/a/b") ∧ ("/a/b" : String) ≠ "/a" := by
  decide

/-! ## Claim C2 -/

/-- C2: for a container with exactly one mount whose destination is
`/data`, the lookup returns exactly that mount's source (assuming the
source is a non-empty path unchanged by whitespace stripping), no matter
what other mounts exist. -/
theorem c2_data_mount_exact_source (mounts : List Mount) (m : Mount) (name : String)
    (h1 : mounts.filter (fun x => x.destination == "/data") = [m])
    (h2 : pyStrip m.source = m.source) (h3 : m.source ≠ "") :
    (getVolumePath (mountEnv mounts) name).2 = .ok (some m.source) := by
  have hmf : m ∈ mounts.filter (fun x => x.destination == "/data") := by
    rw [h1]; exact List.mem_singleton_self m
  have hm : m ∈ mounts := List.mem_of_mem_filter hmf
  have hd : m.destination = "/data" := by
    have := (List.mem_filter.mp hmf).2
    simpa using this
  have hc := dockerInspectJson_contains_data hm hd
  simp [getVolumePath, execRes, mountEnv, suppressedCmd, hc, dataSource_single h1, h2, h3]

/-- Witness for C2 at a concrete two-mount container. -/
theorem c2_witness :
    ([⟨"/cfg", "/config"⟩, ⟨"/vol", "/data"⟩] : List Mount).filter
      (fun x => x.destination == "/data") = [⟨"/vol", "/data"⟩] ∧
    pyStrip "/vol" = "/vol" ∧ ("/vol" : String) ≠ "" ∧
    (getVolumePath (mountEnv [⟨"/cfg", "/config"⟩, ⟨"/vol", "/data"⟩]) "homebox").2 =
      .ok (some "/vol") :=
  ⟨by decide, by decide, by decide,
   c2_data_mount_exact_source [⟨"/cfg", "/config"⟩, ⟨"/vol", "/data"⟩] ⟨"/vol", "/data"⟩
     "homebox" (by decide) (by decide) (by decide)⟩

/-! ## Claim C4 -/

/-- C4 counterexample: the listing command exits 1, yet the scan does not
fail — it reports the no-containers condition (with the stderr text as a
warning), because the code never examines the exit status. -/
theorem c4_counterexample :
    (ExecResult.mk "" "boom" 1).exitCode ≠ 0 ∧
    (doScanContainers (.ok ⟨"", "boom", 1⟩)).outcome = ScanOutcome.noContainers := by
  decide

/-- C4 amended: when the listing command runs and exits non-zero, the scan
does not fail: stderr is surfaced as a warning line, stdout is parsed
regardless, and an empty parse is reported as the no-containers condition. -/
theorem c4_scan_survives_failure (r : ExecResult) (h : r.exitCode ≠ 0) :
    ((doScanContainers (.ok r)).outcome).isError = false ∧
    (doScanContainers (.ok r)).warnings =
      (if r.stderr ≠ "" then ["Warning: " ++ r.stderr] else []) ∧
    (collectContainers (pySplit '\n' (pyStrip r.stdout)) = [] →
      (doScanContainers (.ok r)).outcome = ScanOutcome.noContainers) := by
  by_cases hcs : collectContainers (pySplit '\n' (pyStrip r.stdout)) = [] <;>
    simp [doScanContainers, hcs, ScanOutcome.isError]

/-- Witness for the amended C4 at a concrete failed listing. -/
theorem c4_witness :
    (ExecResult.mk "" "permission denied" 1).exitCode ≠ 0 ∧
    ((doScanContainers (.ok ⟨"", "permission denied", 1⟩)).outcome).isError = false :=
  ⟨by decide, (c4_scan_survives_failure ⟨"", "permission denied", 1⟩ (by decide)).1⟩

/-! ## Claim C8 -/

/-- C8: invoking the delete operation with no retained remote archive path
reports the nothing-to-delete condition, issues no remote command, and
leaves the retained path unchanged (still `none`) — for every host and
whatever the confirmation dialog would have answered. -/
theorem c8_delete_without_archive_noop (env : Env) (confirm : Bool) :
    deleteServerBackup env confirm none =
      { outcome := .nothingToDelete, remote := none, issued := [] } :=
  rfl

/-! ## Claim C9 -/

/-- C9: a line of the listing output contributes a container to the scan
result exactly when it is non-empty and splits on the pipe character into
exactly three fields; every malformed line is silently dropped.  The code's
parse loop equals the filter-map of the specification-side line predicate. -/
theorem c9_line_parse_refines_spec (lines : List String) :
    collectContainers lines = lines.filterMap lineToContainerSpec := by
  induction lines with
  | nil => rfl
  | cons line rest ih =>
    by_cases h1 : line = ""
    · simp [collectContainers, lineToContainerSpec, h1, ih]
    · by_cases h2 : (pySplit '|' line).length = 3
      · simp [collectContainers, lineToContainerSpec, h1, h2, ih]
      · simp [collectContainers, lineToContainerSpec, h1, h2, ih]

/-! ## Claim C3 -/

/-- On any host and inputs, a pipeline run leaves the retained remote
archive path either unchanged or set to the run's own archive path. -/
theorem doBackup_remote (env : Env) (p : Params) (prev : Option String) (st : Trace) :
    (doBackup env p prev st).remote = prev ∨
    (doBackup env p prev st).remote = some (archivePathOf p) := by
  simp only [doBackup]
  repeat' split
  all_goals simp [mkFail]

/-- C3 counterexample: with a previous run's archive path retained, a new
backup job starts and fails at the database dump; the retained path is not
cleared at job start — it still holds the old archive.  The claim's
"cleared when a new backup job starts" would require `none` here. -/
theorem c3_counterexample :
    stepRemote (some "/tmp/old.tar.gz") (Event.runBackup failDumpEnv pW) =
      some "/tmp/old.tar.gz" ∧
    ((startBackup failDumpEnv pW (some "/tmp/old.tar.gz")).outcome).isSuccess = false := by
  decide

/-- C3 amended: the retained remote archive path changes only in two ways —
a backup run that reaches the archive stage sets it to that run's archive
path, and a confirmed remote delete that succeeds clears it; every other
event (including starting a backup job that fails before the archive stage,
a cancelled delete, and a failed delete) leaves it unchanged. -/
theorem c3_remote_path_transitions (s : Option String) (e : Event) :
    stepRemote s e = s ∨
    (∃ env p, e = Event.runBackup env p ∧ stepRemote s e = some (archivePathOf p)) ∨
    (∃ env c, e = Event.deleteBackup env c ∧
      (deleteServerBackup env c s).outcome = DeleteOutcome.deleted ∧
      stepRemote s e = none) := by
  cases e with
  | runBackup env p =>
    rcases doBackup_remote env p s ⟨[], [0], [], []⟩ with h | h
    · left
      simpa [stepRemote, startBackup] using h
    · right; left
      exact ⟨env, p, rfl, by simpa [stepRemote, startBackup] using h⟩
  | deleteBackup env c =>
    cases s with
    | none => left; rfl
    | some path =>
      cases c with
      | false => left; simp [stepRemote, deleteServerBackup]
      | true =>
        cases hr : execRes env (Cmd.rmArchive path) with
        | error e2 => left; simp [stepRemote, deleteServerBackup, hr]
        | ok o =>
          right; right
          exact ⟨env, true, rfl, by simp [deleteServerBackup, hr],
                 by simp [stepRemote, deleteServerBackup, hr]⟩

/-! ## Claim C6 -/

/-- C6: in every run, whatever the host does, the reported progress
checkpoints are non-decreasing from start to end, and 100 is reported only
when the run ends in the success terminal state. -/
theorem c6_progress_monotone (env : Env) (p : Params) (prev : Option String) :
    nondecreasing (startBackup env p prev).trace.progress = true ∧
    ((startBackup env p prev).trace.progress.contains 100 = true →
      ((startBackup env p prev).outcome).isSuccess = true) := by
  cases hio : p.includeOther
  all_goals simp only [startBackup, doBackup, hio, Bool.false_eq_true, if_false, if_true]
  all_goals repeat' split
  all_goals
    simp only [mkFail_trace_progress, mkFail_outcome, applyDelta_progress,
      pushProgress_progress, pushLog_progress, Outcome.isSuccess]
  all_goals refine ⟨by decide, fun h => ?_⟩
  all_goals trivial

/-- Witness for C6 at a concrete fully-successful run. -/
theorem c6_witness :
    nondecreasing (startBackup okEnv pW none).trace.progress = true ∧
    ((startBackup okEnv pW none).trace.progress.contains 100 = true →
      ((startBackup okEnv pW none).outcome).isSuccess = true) :=
  c6_progress_monotone okEnv pW none

/-! ## Claim C5 -/

/-- C5: when the database dump command exits non-zero (with the workspace
creation succeeding and a volume resolved), the run ends in the failed
state with the dump command's captured stderr contained in the surfaced
message, no media-copy, other-files, archive or workspace-cleanup command
is ever issued, and no download is attempted. -/
theorem c5_dump_failure_aborts (env : Env) (p : Params) (prev : Option String) (v : String)
    (hvol : (getVolumePath env p.homeboxName).2 = .ok (some v))
    (hmk1 : (env.exec (Cmd.mkdirWorkspace (tempDirOf p))).exitCode = 0)
    (hmk2 : (env.exec (Cmd.mkdirOtherFiles (tempDirOf p))).exitCode = 0)
    (hdump :
      (env.exec (Cmd.pgDump p.postgresName (tempDirOf p ++ "/database/homebox_db.sql"))).exitCode
        ≠ 0) :
    (startBackup env p prev).outcome =
      Outcome.failure ("Command failed: " ++
        render (Cmd.pgDump p.postgresName (tempDirOf p ++ "/database/homebox_db.sql")) ++
        "\n" ++
        (env.exec (Cmd.pgDump p.postgresName
          (tempDirOf p ++ "/database/homebox_db.sql"))).stderr) ∧
    strContains ("Command failed: " ++
        render (Cmd.pgDump p.postgresName (tempDirOf p ++ "/database/homebox_db.sql")) ++
        "\n" ++
        (env.exec (Cmd.pgDump p.postgresName
          (tempDirOf p ++ "/database/homebox_db.sql"))).stderr)
      ((env.exec (Cmd.pgDump p.postgresName
          (tempDirOf p ++ "/database/homebox_db.sql"))).stderr) = true ∧
    ((startBackup env p prev).trace.issued).all (fun c => !isPostDumpCmd c) = true ∧
    (startBackup env p prev).trace.downloads = [] := by
  have hmkw : execRes env (Cmd.mkdirWorkspace (tempDirOf p)) =
      .ok (env.exec (Cmd.mkdirWorkspace (tempDirOf p))).stdout := by
    simp [execRes, suppressedCmd, hmk1]
  have hmko : execRes env (Cmd.mkdirOtherFiles (tempDirOf p)) =
      .ok (env.exec (Cmd.mkdirOtherFiles (tempDirOf p))).stdout := by
    simp [execRes, suppressedCmd, hmk2]
  have hexec : execRes env
      (Cmd.pgDump p.postgresName (tempDirOf p ++ "/database/homebox_db.sql")) =
      .error ("Command failed: " ++
        render (Cmd.pgDump p.postgresName (tempDirOf p ++ "/database/homebox_db.sql")) ++
        "\n" ++
        (env.exec (Cmd.pgDump p.postgresName
          (tempDirOf p ++ "/database/homebox_db.sql"))).stderr) := by
    simp [execRes, suppressedCmd, hdump]
  have hbd : backupDatabase env p.postgresName (tempDirOf p) =
      (⟨[Cmd.pgDump p.postgresName (tempDirOf p ++ "/database/homebox_db.sql")], [], []⟩,
        .error ("Command failed: " ++
          render (Cmd.pgDump p.postgresName (tempDirOf p ++ "/database/homebox_db.sql")) ++
          "\n" ++
          (env.exec (Cmd.pgDump p.postgresName
            (tempDirOf p ++ "/database/homebox_db.sql"))).stderr)) := by
    simp [backupDatabase, hexec]
  cases hio : p.includeOther
  all_goals
    simp [startBackup, doBackup, hio, hvol, hmkw, hmko, hbd, mkFail,
      List.all_append, gv_downloads_nil, isPostDumpCmd, strContains_suffix]
  all_goals
    intro x hx
    have hall := List.all_eq_true.mp (gv_issued_inspect env p.homeboxName) x hx
    revert hall
    cases x <;> simp [isInspectCmd]

/-- Witness for C5: a concrete host on which the dump exits 1. -/
theorem c5_witness :
    (getVolumePath failDumpEnv pW.homeboxName).2 = .ok (some "/vol") ∧
    (failDumpEnv.exec (Cmd.mkdirWorkspace (tempDirOf pW))).exitCode = 0 ∧
    (failDumpEnv.exec (Cmd.mkdirOtherFiles (tempDirOf pW))).exitCode = 0 ∧
    (failDumpEnv.exec (Cmd.pgDump pW.postgresName
      (tempDirOf pW ++ "/database/homebox_db.sql"))).exitCode ≠ 0 ∧
    (startBackup failDumpEnv pW none).trace.downloads = [] :=
  ⟨by decide, by decide, by decide, by decide,
   (c5_dump_failure_aborts failDumpEnv pW none "/vol"
      (by decide) (by decide) (by decide) (by decide)).2.2.2⟩

/-! ## Claim C7 -/

/-- C7: a run started with the other-files option off never issues a
command creating the extra-files subdirectory, enumerating the volume
root, or copying extra entries; every command it issues belongs to the
fixed core pipeline repertoire. -/
theorem c7_no_other_files_commands (env : Env) (p : Params) (prev : Option String)
    (h : p.includeOther = false) :
    ((startBackup env p prev).trace.issued).all
      (fun c => !isOtherFilesCmd c && isCorePipelineCmd c) = true := by
  have hgv : ((getVolumePath env p.homeboxName).1.issued).all
      (fun c => !isOtherFilesCmd c && isCorePipelineCmd c) = true :=
    listAllMono inspect_core (gv_issued_inspect env p.homeboxName)
  have hbm : ∀ v : String,
      ((backupMedia env v (tempDirOf p)).1.issued).all
        (fun c => !isOtherFilesCmd c && isCorePipelineCmd c) = true := fun v =>
    bm_issued_all env v (tempDirOf p) _
      (by simp [isOtherFilesCmd, isCorePipelineCmd])
      (by simp [isOtherFilesCmd, isCorePipelineCmd])
  have hc1 : ∀ t, isOtherFilesCmd (Cmd.mkdirWorkspace t) = false := fun _ => rfl
  have hc2 : ∀ t, isCorePipelineCmd (Cmd.mkdirWorkspace t) = true := fun _ => rfl
  have hc3 : ∀ a b, isOtherFilesCmd (Cmd.pgDump a b) = false := fun _ _ => rfl
  have hc4 : ∀ a b, isCorePipelineCmd (Cmd.pgDump a b) = true := fun _ _ => rfl
  have hc5 : ∀ t, isOtherFilesCmd (Cmd.tarArchive t) = false := fun _ => rfl
  have hc6 : ∀ t, isCorePipelineCmd (Cmd.tarArchive t) = true := fun _ => rfl
  have hc7 : ∀ t, isOtherFilesCmd (Cmd.rmTemp t) = false := fun _ => rfl
  have hc8 : ∀ t, isCorePipelineCmd (Cmd.rmTemp t) = true := fun _ => rfl
  simp only [startBackup, doBackup, h, Bool.false_eq_true, if_false]
  repeat' split
  all_goals
    simp [mkFail, List.all_append, hgv, hbm, bd_issued, dlb_issued,
      hc1, hc2, hc3, hc4, hc5, hc6, hc7, hc8]

/-- Witness for C7 at a concrete run with the option off. -/
theorem c7_witness :
    pW.includeOther = false ∧
    ((startBackup okEnv pW none).trace.issued).all
      (fun c => !isOtherFilesCmd c && isCorePipelineCmd c) = true :=
  ⟨rfl, c7_no_other_files_commands okEnv pW none rfl⟩

/-! ## Claim C10 -/

/-- C10: when the attachments subpath exists, the media stage issues the
copy in its error-suppressing form and always succeeds — nothing in the
hypotheses constrains what the copy utility itself does, so a failing copy
cannot abort the run — and the pipeline goes on to issue the archive
command. -/
theorem c10_media_copy_suppressed (env : Env) (p : Params) (prev : Option String) (v : String)
    (hvol : (getVolumePath env p.homeboxName).2 = .ok (some v))
    (hmk1 : (env.exec (Cmd.mkdirWorkspace (tempDirOf p))).exitCode = 0)
    (hdump :
      (env.exec (Cmd.pgDump p.postgresName (tempDirOf p ++ "/database/homebox_db.sql"))).exitCode
        = 0)
    (hcheck : pyStrip ((env.exec (Cmd.checkMediaDir (v ++ "/attachments"))).stdout) = "exists")
    (hio : p.includeOther = false) :
    (backupMedia env v (tempDirOf p)).2 = .ok () ∧
    (backupMedia env v (tempDirOf p)).1.issued =
      [Cmd.checkMediaDir (v ++ "/attachments"),
       Cmd.copyMedia (v ++ "/attachments") (tempDirOf p ++ "/media/")] ∧
    Cmd.tarArchive (backupNameOf p) ∈ (startBackup env p prev).trace.issued := by
  have hchk : execRes env (Cmd.checkMediaDir (v ++ "/attachments")) =
      .ok ((env.exec (Cmd.checkMediaDir (v ++ "/attachments"))).stdout) := by
    simp [execRes, suppressedCmd]
  have hcp : execRes env (Cmd.copyMedia (v ++ "/attachments") (tempDirOf p ++ "/media/")) =
      .ok ((env.exec (Cmd.copyMedia (v ++ "/attachments")
        (tempDirOf p ++ "/media/"))).stdout) := by
    simp [execRes, suppressedCmd]
  have hbm : backupMedia env v (tempDirOf p) =
      (⟨[Cmd.checkMediaDir (v ++ "/attachments"),
         Cmd.copyMedia (v ++ "/attachments") (tempDirOf p ++ "/media/")],
        ["Media files backup completed"], []⟩, .ok ()) := by
    simp [backupMedia, hchk, hcheck, hcp]
  have hmkw : execRes env (Cmd.mkdirWorkspace (tempDirOf p)) =
      .ok (env.exec (Cmd.mkdirWorkspace (tempDirOf p))).stdout := by
    simp [execRes, suppressedCmd, hmk1]
  have hpd : execRes env
      (Cmd.pgDump p.postgresName (tempDirOf p ++ "/database/homebox_db.sql")) =
      .ok ((env.exec (Cmd.pgDump p.postgresName
        (tempDirOf p ++ "/database/homebox_db.sql"))).stdout) := by
    simp [execRes, suppressedCmd, hdump]
  have hbd : backupDatabase env p.postgresName (tempDirOf p) =
      (⟨[Cmd.pgDump p.postgresName (tempDirOf p ++ "/database/homebox_db.sql")],
        ["Database backup completed"], []⟩, .ok ()) := by
    simp [backupDatabase, hpd]
  refine ⟨by rw [hbm], by rw [hbm], ?_⟩
  simp only [startBackup, doBackup, hio, Bool.false_eq_true, if_false,
    hvol, hmkw, hbd, hbm]
  repeat' split
  all_goals simp [mkFail]

/-- Witness for C10: a concrete host on which the copy utility exits 1
(suppressed by the shell), demonstrating the run still reaches the archive
stage. -/
theorem c10_witness :
    (getVolumePath mediaFailEnv pW.homeboxName).2 = .ok (some "/vol") ∧
    (mediaFailEnv.exec
      (Cmd.copyMedia ("/vol" ++ "/attachments") (tempDirOf pW ++ "/media/"))).exitCode = 1 ∧
    ((backupMedia mediaFailEnv "/vol" (tempDirOf pW)).2 = .ok () ∧
     (backupMedia mediaFailEnv "/vol" (tempDirOf pW)).1.issued =
       [Cmd.checkMediaDir ("/vol" ++ "/attachments"),
        Cmd.copyMedia ("/vol" ++ "/attachments") (tempDirOf pW ++ "/media/")] ∧
     Cmd.tarArchive (backupNameOf pW) ∈ (startBackup mediaFailEnv pW none).trace.issued) :=
  ⟨by decide, by decide,
   c10_media_copy_suppressed mediaFailEnv pW none "/vol"
     (by decide) (by decide) (by decide) (by decide) rfl⟩

end HB

